import Mathlib

set_option maxRecDepth 20000

/-!
Shallow embedding of `src/controllers/lucid.py` (class `lucidBLEController`)
from the hass-mqtt-bed repository, together with theorems settling the
specification claims about it.

Device I/O, lock operations and sleeps are modelled as explicit event traces;
the behaviour of the environment (whether each transport operation succeeds)
is an explicit oracle argument, so every definition is executable.
-/

namespace Lucid

/-- A byte value (Python `bytes` element). -/
abbrev Byte := Fin 256

/-- Value of a single hexadecimal digit character, the set accepted by
Python `bytes.fromhex`: the ASCII ranges 0-9 (codes 48-57), a-f (97-102)
and A-F (65-70). -/
def hexDigitVal (c : Char) : Option (Fin 16) :=
  let n := c.toNat
  if h : 48 ≤ n ∧ n ≤ 57 then some ⟨n - 48, by omega⟩
  else if h : 97 ≤ n ∧ n ≤ 102 then some ⟨n - 87, by omega⟩
  else if h : 65 ≤ n ∧ n ≤ 70 then some ⟨n - 55, by omega⟩
  else none

/-- Python `bytes.fromhex` on a character list: ASCII spaces between byte
pairs are skipped, the remaining characters must form an even number of
hexadecimal digits; each pair becomes one byte (high digit first).
Returns `none` where Python raises `ValueError`. -/
def fromhexChars : List Char → Option (List Byte)
  | [] => some []
  | c1 :: rest =>
    if c1 = ' ' then fromhexChars rest
    else
      match rest with
      | [] => none
      | c2 :: rest2 =>
        match hexDigitVal c1, hexDigitVal c2 with
        | some h, some l => (fromhexChars rest2).map (⟨16 * h.val + l.val, by omega⟩ :: ·)
        | _, _ => none

/-- Python `bytes.fromhex` on a string. -/
def fromhex (s : String) : Option (List Byte) :=
  fromhexChars s.data

/-- The Command Table: `self.commands` from `lucidBLEController.__init__`
(lucid.py lines 42-63), name to hexadecimal payload, in source order. -/
def commands : List (String × String) :=
  [ ("Flat Preset",        "e6fe160000000800fd"),
    ("ZeroG Preset",       "e6fe160010000000f5"),
    ("TV Preset",          "e6fe160040000000c5"),
    ("Lounge Preset",      "e6fe160020000000e5"),
    ("Quiet Sleep",        "e6fe16008000000085"),
    ("Memory 1",           "e6fe16000001000004"),
    ("Memory 2",           "e6fe16000004000001"),
    ("Underlight",         "e6fe16000002000003"),
    ("Lift Head",          "e6fe16010000000004"),
    ("Lower Head",         "e6fe16020000000003"),
    ("Lift Foot",          "e6fe16040000000001"),
    ("Lower Foot",         "e6fe160800000000fd"),
    ("Massage Toggle",     "e6fe16000100000004"),
    ("Wave Massage Cycle", "e6fe160000001000f5"),
    ("Head Massage Cycle", "e6fe160008000000fd"),
    ("Foot Massage Cycle", "e6fe16000400000001"),
    ("Massage Timer",      "e6fe16000200000003"),
    ("Keepalive NOOP",     "e6fe16000000000005") ]

/-- `self.commands.get(name, None)`: dictionary lookup by name. -/
def commandsGet (name : String) : Option String :=
  (commands.find? (fun p => p.1 = name)).map (·.2)

/-- The Python exceptions the embedded control flow distinguishes. -/
inductive PyExn where
  | typeError
  | attributeError
  | btleError
  deriving DecidableEq, Repr

/-- Observable events of a run: lock operations, device I/O attempts,
sleeps (in tenths of a second), entering the reconnect routine, and error
logging. -/
inductive Event where
  | acquire
  | release
  | openAttempt (ok : Bool)
  | readAttempt (handle : Nat) (ok : Bool)
  | writeAttempt (handle : Nat) (payload : List Byte) (ok : Bool)
  | enumAttempt (ok : Bool)
  | charRead (uuid : String) (ok : Bool)
  | descRead (uuid : String) (ok : Bool)
  | sleepTenths (n : Nat)
  | reconnectEnter
  | logError (msg : String)
  deriving DecidableEq, Repr

/-- Whether an event is a lock acquire or release. -/
def Event.isLockOp : Event → Bool
  | .acquire => true
  | .release => true
  | _ => false

/-- Whether an event is an operation on the device (transport I/O). -/
def Event.isDeviceOp : Event → Bool
  | .openAttempt _ => true
  | .readAttempt _ _ => true
  | .writeAttempt _ _ _ => true
  | .enumAttempt _ => true
  | .charRead _ _ => true
  | .descRead _ _ => true
  | _ => false

/-- The device writes (handle, payload) recorded in a trace, in order. -/
def writesOf (tr : List Event) : List (Nat × List Byte) :=
  tr.filterMap (fun e =>
    match e with
    | .writeAttempt h p _ => some (h, p)
    | _ => none)

/-- Number of invocations of the reconnect routine recorded in a trace. -/
def reconnectsOf (tr : List Event) : Nat :=
  (tr.filter (fun e => e = Event.reconnectEnter)).length

/-- Environment outcome of one iteration of the `connectBed` retry loop:
whether `Peripheral(...)` succeeds, and whether each of the two
control-enable handshake reads (`readCharacteristic(0x001A)`,
`readCharacteristic(0x001D)`) succeeds when attempted. -/
structure Attempt where
  openOk : Bool
  read1Ok : Bool
  read2Ok : Bool
  deriving DecidableEq, Repr

/-- Result of running `connectBed` against a finite oracle. -/
inductive ConnectResult where
  | connected
  | pending
  | raised (e : PyExn)
  deriving DecidableEq, Repr

/-- `connectBed` (lucid.py lines 105-124), run against a finite list of
per-iteration outcomes.  The boolean state is whether the `self.device`
attribute has ever been assigned (it is unset on the very first invocation
from the constructor until the first successful `Peripheral(...)` call).

Per iteration: the open attempt's exception is caught and logged; then
`if self.device is not None:` — when the attribute was never assigned this
raises `AttributeError`, which is not inside a `try` and propagates to the
caller; when it is assigned (a `Peripheral` is never `None`), the handshake
reads run, a failure is caught, and on success the function returns.  After
any caught failure it sleeps one second and retries.  An exhausted oracle
models the loop still running (`pending`). -/
def connectBedRun : Bool → List Attempt → List Event × Bool × ConnectResult
  | ds, [] => ([], ds, .pending)
  | ds, a :: rest =>
    let ds2 := ds || a.openOk
    if ds2 = false then
      ([Event.openAttempt a.openOk], ds2, .raised .attributeError)
    else
      if a.read1Ok && a.read2Ok then
        ([Event.openAttempt a.openOk, .readAttempt 0x1A true, .readAttempt 0x1D true],
         ds2, .connected)
      else
        let readEvs :=
          if a.read1Ok then [Event.readAttempt 0x1A true, Event.readAttempt 0x1D false]
          else [Event.readAttempt 0x1A false]
        let r := connectBedRun ds2 rest
        (Event.openAttempt a.openOk :: readEvs ++ [Event.sleepTenths 10] ++ r.1, r.2.1, r.2.2)

/-- The keepalive payload bytes: `bytes.fromhex(self.commands.get("Keepalive NOOP", None))`. -/
def keepaliveBytes : Option (List Byte) :=
  (commandsGet "Keepalive NOOP").bind fromhex

/-- One keepalive probe inside `bluetoothPoller` (lucid.py lines 83-87 and
92-96): look up the keepalive payload, convert with `bytes.fromhex`, and
write it to handle 0x001A.  If the table lookup returned `None`,
`bytes.fromhex` raises before any device write; if `self.device` was never
assigned, the attribute access raises before any device write; otherwise
the write itself succeeds or fails as the oracle `ok` says.  The boolean
result is whether the probe succeeded (all these exceptions are caught by
the surrounding `except Exception`). -/
def pollerProbe (ds : Bool) (ok : Bool) : List Event × Bool :=
  match keepaliveBytes with
  | none => ([], false)
  | some p => if ds then ([Event.writeAttempt 0x1A p ok], ok) else ([], false)

/-- Outcome of one `bluetoothPoller` tick. -/
inductive TickResult where
  | normal
  | pending
  | raised (e : PyExn)
  deriving DecidableEq, Repr

/-- One iteration of `bluetoothPoller` (lucid.py lines 80-102): acquire the
`charWriteInProgress` lock, attempt the keepalive probe; on failure sleep
0.5 s and probe once more; on a second failure invoke `connectBed` while
still holding the lock.  The `with` block releases the lock on normal exit
and on exception propagation; if `connectBed` is still looping (`pending`)
the lock is still held.  After the block the loop sleeps 10 s. -/
def pollerTickRun (ds : Bool) (first2 : Bool × Bool) (attempts : List Attempt) :
    List Event × Bool × TickResult :=
  let p1 := pollerProbe ds first2.1
  if p1.2 then
    (Event.acquire :: p1.1 ++ [Event.release, Event.sleepTenths 100], ds, .normal)
  else
    let p2 := pollerProbe ds first2.2
    if p2.2 then
      (Event.acquire :: p1.1 ++ [Event.sleepTenths 5] ++ p2.1 ++
         [Event.release, Event.sleepTenths 100], ds, .normal)
    else
      let r := connectBedRun ds attempts
      match r.2.2 with
      | .connected =>
        (Event.acquire :: p1.1 ++ [Event.sleepTenths 5] ++ p2.1 ++
           [Event.reconnectEnter] ++ r.1 ++ [Event.release, Event.sleepTenths 100],
         r.2.1, .normal)
      | .pending =>
        (Event.acquire :: p1.1 ++ [Event.sleepTenths 5] ++ p2.1 ++
           [Event.reconnectEnter] ++ r.1, r.2.1, .pending)
      | .raised e =>
        (Event.acquire :: p1.1 ++ [Event.sleepTenths 5] ++ p2.1 ++
           [Event.reconnectEnter] ++ r.1 ++ [Event.release], r.2.1, .raised e)

/-- Environment for one `send_command` call: whether the first
`writeCharacteristic` succeeds, the reconnect oracle, and the measured
wall-clock duration `end - start` of the reconnect in seconds. -/
structure SendEnv where
  firstWriteOk : Bool
  attempts : List Attempt
  reconnectSecs : ℚ
  deriving DecidableEq

/-- Outcome of a `send_command` call. -/
inductive SendResult where
  | unknownCommand
  | sent
  | dropped
  | pending
  | raised (e : PyExn)
  deriving DecidableEq, Repr

/-- `charWrite(cmd, name)` (lucid.py lines 154-160): `bytes.fromhex(cmd)`
(raises `ValueError` on a malformed payload, before any device write), then
`self.device.writeCharacteristic(0x001A, ..., withResponse=True)` (raises
`AttributeError` before any device write when `self.device` was never
assigned).  The boolean result is whether the call returned normally. -/
def charWriteRun (ds : Bool) (cmdHex : String) (ok : Bool) : List Event × Bool :=
  match fromhex cmdHex with
  | none => ([], false)
  | some p => if ds then ([Event.writeAttempt 0x1A p ok], ok) else ([], false)

/-- `send_command(name)` (lucid.py lines 127-151).  An unknown name is
logged and the function returns before taking the lock — no I/O at all.
For a known name: acquire the lock, attempt `charWrite`; on failure log and
call `connectBed` (while holding the lock), measuring its wall-clock
duration.  If the reconnect finished in strictly under five seconds the
source executes `self.charWrite(self, cmd, name)` (lucid.py line 143): the
bound method receives four positional arguments for a three-parameter
function, so Python raises `TypeError` before the body of `charWrite` runs —
no second device write is ever attempted — and the `except Exception` at
line 144 catches it and logs that the command is dropped.  If the reconnect
took five seconds or more the command is dropped without a retry attempt. -/
def sendCommandRun (ds : Bool) (env : SendEnv) (name : String) :
    List Event × Bool × SendResult :=
  match commandsGet name with
  | none => ([Event.logError "Unknown Command -- ignoring."], ds, .unknownCommand)
  | some cmdHex =>
    let w1 := charWriteRun ds cmdHex env.firstWriteOk
    if w1.2 then
      (Event.acquire :: w1.1 ++ [Event.release], ds, .sent)
    else
      let r := connectBedRun ds env.attempts
      let pre := Event.acquire :: w1.1 ++
        [Event.logError "Error sending command, attempting reconnect.",
         Event.reconnectEnter] ++ r.1
      match r.2.2 with
      | .pending => (pre, r.2.1, .pending)
      | .raised e => (pre ++ [Event.release], r.2.1, .raised e)
      | .connected =>
        if env.reconnectSecs < 5 then
          (pre ++ [Event.logError
              "Command failed to transmit despite second attempt, dropping command.",
            Event.release], r.2.1, .dropped)
        else
          (pre ++ [Event.logError
              "Bluetooth reconnect took more than five seconds, dropping command.",
            Event.release], r.2.1, .dropped)

/-- Environment data for one characteristic inside `scan_characteristics`:
its uuid, whether `char.read()` succeeds, and for each descriptor its uuid
and whether `desc.read()` succeeds.  (The values read feed only the
change-tracking bookkeeping, modelled separately by `compare_and_update`
below; the event trace does not depend on them.) -/
structure CharData where
  uuid : String
  readOk : Bool
  descs : List (String × Bool)
  deriving DecidableEq, Repr

/-- Environment data for one service: its uuid and its characteristics. -/
structure ServiceData where
  uuid : String
  chars : List CharData
  deriving DecidableEq, Repr

/-- Descriptor reads of one characteristic: each is attempted in order, and
the first failure raises out of the per-characteristic `try`, which catches
and logs it, skipping the remaining descriptors. -/
def descReadEvents : List (String × Bool) → List Event
  | [] => []
  | (u, true) :: rest => Event.descRead u true :: descReadEvents rest
  | (u, false) :: _ => [Event.descRead u false, Event.logError "Error reading characteristic"]

/-- The reads performed for one characteristic inside
`scan_characteristics` (lucid.py lines 180-190): `char.read()`, then its
descriptors; any failure is caught and logged per characteristic. -/
def scanCharEvents (c : CharData) : List Event :=
  if c.readOk then Event.charRead c.uuid true :: descReadEvents c.descs
  else [Event.charRead c.uuid false, Event.logError "Error reading characteristic"]

/-- `scan_characteristics` (lucid.py lines 162-194): acquire the
`charWriteInProgress` lock, `self.device.getServices()` (on failure the
outer `except` logs and the `with` block releases), then read every
characteristic and descriptor of every service.  The trace contains reads
only — this routine performs no device writes. -/
def scanCharacteristicsRun (getOk : Bool) (svcs : List ServiceData) : List Event :=
  if getOk then
    Event.acquire :: Event.enumAttempt true ::
      (svcs.flatMap (fun s => s.chars.flatMap scanCharEvents)) ++ [Event.release]
  else
    [Event.acquire, Event.enumAttempt false,
     Event.logError "Error scanning characteristics", Event.release]

/-- State of a loop run against a finite oracle: still in the loop, or
returned to the caller. -/
inductive LoopState where
  | running
  | returned
  deriving DecidableEq, Repr

/-- `periodic_scan` (lucid.py lines 201-204): `while True:` scan, then
sleep one second.  The body contains no `return` or `break`, so against any
finite oracle the run is still `running`. -/
def periodicScanRun : List (Bool × List ServiceData) → List Event × LoopState
  | [] => ([], .running)
  | (ok, svcs) :: rest =>
    let r := periodicScanRun rest
    (scanCharacteristicsRun ok svcs ++ [Event.sleepTenths 10] ++ r.1, r.2)

/-- The two thread-target functions a constructor could start in this file. -/
inductive TaskId where
  | bluetoothPoller
  | periodicScan
  deriving DecidableEq, Repr

/-- An effectful step of the constructor. -/
inductive InitStep where
  | callConnectBed
  | startDaemonThread (t : TaskId)
  deriving DecidableEq, Repr

/-- The effectful tail of `lucidBLEController.__init__` (lucid.py lines
64-74): a blocking `self.connectBed()` call, then
`self.scan_characteristics_periodically()`, which starts a daemon thread
whose target is `periodic_scan` (lucid.py lines 196-199).  The thread start
for `bluetoothPoller` at lines 71-73 is commented out in the source, so no
keepalive-probe thread is started. -/
def initSteps : List InitStep :=
  [InitStep.callConnectBed, InitStep.startDaemonThread TaskId.periodicScan]

/-- Lock-discipline step: given the current lock-hold depth, an event is
admissible if it is not a release at depth zero and not a device operation
outside the (non-reentrant, so depth exactly one) held section; it yields
the new depth. -/
def guardStep (d : Nat) (e : Event) : Option Nat :=
  match e with
  | .acquire => some (d + 1)
  | .release => if d = 0 then none else some (d - 1)
  | _ => if e.isDeviceOp && d ≠ 1 then none else some d

/-- Check that every device operation in a trace happens while the lock is
held (starting from depth `d`), and that releases are balanced. -/
def checkGuarded (d : Nat) : List Event → Bool
  | [] => true
  | e :: rest =>
    match guardStep d e with
    | none => false
    | some d2 => checkGuarded d2 rest

/-- Modelled from the spec: the Status Decoder of spec section 4.3 is not
present under `src/` (only the diagnostic scanning variant of the
controller is); its angle normalization
`angle = min_angle + (raw - min_raw) * (max_angle - min_angle) / (max_raw - min_raw)`. -/
def normalize (minRaw maxRaw minAngle maxAngle raw : ℚ) : ℚ :=
  minAngle + (raw - minRaw) * (maxAngle - minAngle) / (maxRaw - minRaw)

/-- Modelled from the spec: the head-angle sub-field bytes are read in
swapped order and concatenated before parsing. -/
def swapConcat (b1 b2 : String) : String :=
  b2 ++ b1

/-- Modelled from the spec: parse a hexadecimal string as an unsigned
integer, most significant digit first (16-bit for the two-byte sub-field). -/
def hexToNat : List Char → Nat → Option Nat
  | [], acc => some acc
  | c :: rest, acc =>
    match hexDigitVal c with
    | some d => hexToNat rest (16 * acc + d.val)
    | none => none

/-- Modelled from the spec: hexadecimal string to unsigned integer. -/
def hexStrToNat (s : String) : Option Nat :=
  hexToNat s.data 0

/-- Modelled from the spec: the head-angle decode pipeline — swap and
concatenate the two sub-field byte strings, parse as a 16-bit unsigned
integer, normalize with `min_raw=0, max_raw=16000, min_angle=0,
max_angle=60`. -/
def headAngleOfSubfields (b1 b2 : String) : Option ℚ :=
  (hexStrToNat (swapConcat b1 b2)).map (fun raw => normalize 0 16000 0 60 (Nat.cast raw))

/-- `self.last_known_values`: a Python dict from characteristic or
descriptor uuid to the last observed raw bytes, modelled as an association
list (first binding wins, assignment replaces in place). -/
abbrev LKV := List (String × List Byte)

/-- Dict membership/lookup: `uuid in self.last_known_values` and
`self.last_known_values[uuid]`. -/
def lkvLookup : LKV → String → Option (List Byte)
  | [], _ => none
  | p :: rest, k => if p.1 = k then some p.2 else lkvLookup rest k

/-- Dict assignment `self.last_known_values[uuid] = new_value`. -/
def lkvInsert : LKV → String → List Byte → LKV
  | [], k, v => [(k, v)]
  | p :: rest, k, v => if p.1 = k then (k, v) :: rest else p :: lkvInsert rest k v

/-- UTF-8 continuation byte test (`0x80..0xBF`). -/
def isCont (n : Nat) : Bool :=
  0x80 ≤ n && n ≤ 0xBF

/-- Strict UTF-8 decoding of a byte list into a list of code points, as
Python `bytes.decode("utf-8")`: rejects truncated sequences, stray
continuation bytes, overlong encodings, surrogate code points and values
above U+10FFFF.  `none` models `UnicodeDecodeError`. -/
def utf8Decode : List Byte → Option (List Nat)
  | [] => some []
  | b :: rest =>
    let v := b.val
    if v ≤ 0x7F then
      (utf8Decode rest).map (v :: ·)
    else if 0xC2 ≤ v && v ≤ 0xDF then
      match rest with
      | c1 :: r =>
        if isCont c1.val then
          (utf8Decode r).map (((v - 0xC0) * 0x40 + (c1.val - 0x80)) :: ·)
        else none
      | [] => none
    else if 0xE0 ≤ v && v ≤ 0xEF then
      match rest with
      | c1 :: c2 :: r =>
        let lo1 := if v = 0xE0 then 0xA0 else 0x80
        let hi1 := if v = 0xED then 0x9F else 0xBF
        if (lo1 ≤ c1.val && c1.val ≤ hi1) && isCont c2.val then
          (utf8Decode r).map
            (((v - 0xE0) * 0x1000 + (c1.val - 0x80) * 0x40 + (c2.val - 0x80)) :: ·)
        else none
      | _ => none
    else if 0xF0 ≤ v && v ≤ 0xF4 then
      match rest with
      | c1 :: c2 :: c3 :: r =>
        let lo1 := if v = 0xF0 then 0x90 else 0x80
        let hi1 := if v = 0xF4 then 0x8F else 0xBF
        if (lo1 ≤ c1.val && c1.val ≤ hi1) && isCont c2.val && isCont c3.val then
          (utf8Decode r).map
            (((v - 0xF0) * 0x40000 + (c1.val - 0x80) * 0x1000 +
              (c2.val - 0x80) * 0x40 + (c3.val - 0x80)) :: ·)
        else none
      | _ => none
    else none

/-- Little-endian unsigned integer value of a byte list: `struct.unpack`
with format `B` (length 1), `<H` (length 2) or `<I` (length 4). -/
def leNat : List Byte → Nat
  | [] => 0
  | b :: rest => b.val + 256 * leNat rest

/-- The lowercase hexadecimal digit character for a nibble value, as
`bytes.hex()` prints it: 0-9 map to ASCII 48-57, 10-15 to a-f (97-102). -/
def hexDigitChar (n : Nat) : Char :=
  Char.ofNat (if n < 10 then 48 + n else 87 + n)

/-- Python `bytes.hex()`: two lowercase hexadecimal digits per byte. -/
def bytesToHexChars : List Byte → List Char
  | [] => []
  | b :: rest => hexDigitChar (b.val / 16) :: hexDigitChar (b.val % 16) :: bytesToHexChars rest

/-- Python `bytes.hex()` as a string. -/
def bytesToHex (v : List Byte) : String :=
  String.mk (bytesToHexChars v)

/-- The value `parse_value` returns: a decoded string (as code points), an
integer, or the hexadecimal representation. -/
inductive PyValue where
  | str (codepoints : List Nat)
  | int (n : Nat)
  | hexRepr (s : String)
  deriving DecidableEq, Repr

/-- `parse_value(value)` (lucid.py lines 234-250): try UTF-8 decoding
(`UnicodeDecodeError` is caught); then interpret lengths 1, 2, 4 as
little-endian unsigned integers via `struct.unpack`; otherwise return
`value.hex()`. -/
def parse_value (v : List Byte) : PyValue :=
  match utf8Decode v with
  | some cps => .str cps
  | none =>
    if v.length = 1 then .int (leNat v)
    else if v.length = 2 then .int (leNat v)
    else if v.length = 4 then .int (leNat v)
    else .hexRepr (bytesToHex v)

/-- `compare_and_update(service_uuid, char_uuid, new_value)` (lucid.py
lines 206-218): keyed on the characteristic uuid in `last_known_values`;
returns whether an update happened together with the new dict.
(`parse_value` is invoked on the raw bytes only to build the log messages;
it is total — see `parse_value` — and does not affect the result.) -/
def compare_and_update (m : LKV) (serviceUuid charUuid : String)
    (newValue : List Byte) : Bool × LKV :=
  match lkvLookup m charUuid with
  | some old =>
    if old ≠ newValue then (true, lkvInsert m charUuid newValue)
    else (false, m)
  | none => (true, lkvInsert m charUuid newValue)

/-- `compare_and_update_descriptor(service_uuid, char_uuid, desc_uuid,
new_value)` (lucid.py lines 220-232): identical logic keyed on the
descriptor uuid in the same `last_known_values` dict. -/
def compare_and_update_descriptor (m : LKV) (serviceUuid charUuid descUuid : String)
    (newValue : List Byte) : Bool × LKV :=
  match lkvLookup m descUuid with
  | some old =>
    if old ≠ newValue then (true, lkvInsert m descUuid newValue)
    else (false, m)
  | none => (true, lkvInsert m descUuid newValue)

/-- The keepalive payload as bytes: `bytes.fromhex("e6fe16000000000005")`. -/
def kpBytes : List Byte :=
  [0xe6, 0xfe, 0x16, 0, 0, 0, 0, 0, 0x05]

/-- The Flat Preset payload as bytes: `bytes.fromhex("e6fe160000000800fd")`. -/
def flatPresetBytes : List Byte :=
  [0xe6, 0xfe, 0x16, 0, 0, 0, 0x08, 0, 0xfd]

end Lucid

namespace Lucid

/-! ### Helper lemmas -/

theorem keepaliveBytes_eq : keepaliveBytes = some kpBytes := by decide

theorem guardStep_one_of_nonlock (e : Event) (h : e.isLockOp = false) :
    guardStep 1 e = some 1 := by
  cases e <;> first
    | rfl
    | simp [Event.isLockOp] at h

theorem checkGuarded_one_append (evs rest : List Event)
    (h : evs.all (fun e => !e.isLockOp) = true) :
    checkGuarded 1 (evs ++ rest) = checkGuarded 1 rest := by
  induction evs with
  | nil => rfl
  | cons e evs ih =>
    rw [List.all_cons, Bool.and_eq_true] at h
    have he : e.isLockOp = false := by
      cases hl : e.isLockOp
      · rfl
      · rw [hl] at h; exact absurd h.1 (by simp)
    rw [List.cons_append]
    show checkGuarded 1 (e :: (evs ++ rest)) = checkGuarded 1 rest
    rw [show checkGuarded 1 (e :: (evs ++ rest)) =
          (match guardStep 1 e with
           | none => false
           | some d2 => checkGuarded d2 (evs ++ rest)) from rfl,
        guardStep_one_of_nonlock e he]
    exact ih h.2

theorem checkGuarded_zero_block (mid tail : List Event)
    (h : mid.all (fun e => !e.isLockOp) = true)
    (htail : checkGuarded 1 tail = true) :
    checkGuarded 0 (Event.acquire :: (mid ++ tail)) = true := by
  show checkGuarded 1 (mid ++ tail) = true
  rw [checkGuarded_one_append mid tail h, htail]

theorem connectBed_events_mem (ds : Bool) (as : List Attempt) :
    ∀ e ∈ (connectBedRun ds as).1,
      (∃ b, e = Event.openAttempt b) ∨ (∃ h b, e = Event.readAttempt h b) ∨
      (∃ n, e = Event.sleepTenths n) := by
  induction as generalizing ds with
  | nil => intro e he; simp [connectBedRun] at he
  | cons a rest ih =>
    intro e he
    by_cases h1 : (ds || a.openOk) = false
    · simp [connectBedRun, h1] at he
      exact Or.inl ⟨a.openOk, he⟩
    · by_cases h3 : a.read1Ok = true <;> by_cases h4 : a.read2Ok = true
      · simp [connectBedRun, h1, h3, h4] at he
        rcases he with he | he | he
        · exact Or.inl ⟨a.openOk, he⟩
        · exact Or.inr (Or.inl ⟨0x1A, true, he⟩)
        · exact Or.inr (Or.inl ⟨0x1D, true, he⟩)
      · simp [connectBedRun, h1, h3, h4] at he
        rcases he with he | he | he | he | he
        · exact Or.inl ⟨a.openOk, he⟩
        · exact Or.inr (Or.inl ⟨0x1A, true, he⟩)
        · exact Or.inr (Or.inl ⟨0x1D, false, he⟩)
        · exact Or.inr (Or.inr ⟨10, he⟩)
        · exact ih true e he
      · simp [connectBedRun, h1, h3, h4] at he
        rcases he with he | he | he | he
        · exact Or.inl ⟨a.openOk, he⟩
        · exact Or.inr (Or.inl ⟨0x1A, false, he⟩)
        · exact Or.inr (Or.inr ⟨10, he⟩)
        · exact ih true e he
      · simp [connectBedRun, h1, h3, h4] at he
        rcases he with he | he | he | he
        · exact Or.inl ⟨a.openOk, he⟩
        · exact Or.inr (Or.inl ⟨0x1A, false, he⟩)
        · exact Or.inr (Or.inr ⟨10, he⟩)
        · exact ih true e he

theorem connectBed_nonlock (ds : Bool) (as : List Attempt) :
    (connectBedRun ds as).1.all (fun e => !e.isLockOp) = true := by
  rw [List.all_eq_true]
  intro e he
  rcases connectBed_events_mem ds as e he with ⟨b, rfl⟩ | ⟨h, b, rfl⟩ | ⟨n, rfl⟩ <;> rfl

theorem connectBed_no_writes (ds : Bool) (as : List Attempt) :
    writesOf (connectBedRun ds as).1 = [] := by
  rw [writesOf, List.filterMap_eq_nil]
  intro e he
  rcases connectBed_events_mem ds as e he with ⟨b, rfl⟩ | ⟨h, b, rfl⟩ | ⟨n, rfl⟩ <;> rfl

theorem connectBed_no_reconnects (ds : Bool) (as : List Attempt) :
    reconnectsOf (connectBedRun ds as).1 = 0 := by
  rw [reconnectsOf, List.length_eq_zero, List.filter_eq_nil]
  intro e he
  rcases connectBed_events_mem ds as e he with ⟨b, rfl⟩ | ⟨h, b, rfl⟩ | ⟨n, rfl⟩ <;> simp

theorem connectBed_true_not_raised (as : List Attempt) (e : PyExn) :
    (connectBedRun true as).2.2 ≠ ConnectResult.raised e := by
  induction as with
  | nil => simp [connectBedRun]
  | cons a rest ih =>
    by_cases h2 : (a.read1Ok && a.read2Ok) = true
    · simp [connectBedRun, h2]
    · by_cases h3 : a.read1Ok = true <;> simp_all [connectBedRun, h2, h3]

theorem lkvLookup_insert (m : LKV) (k : String) (v : List Byte) :
    lkvLookup (lkvInsert m k v) k = some v := by
  induction m with
  | nil => simp [lkvInsert, lkvLookup]
  | cons p rest ih =>
    by_cases h : p.1 = k
    · simp [lkvInsert, lkvLookup, h]
    · simp [lkvInsert, lkvLookup, h, ih]

theorem lkvLookup_after_cau (m : LKV) (s c : String) (v : List Byte) :
    lkvLookup (compare_and_update m s c v).2 c = some v := by
  rcases h : lkvLookup m c with _ | old
  · simp [compare_and_update, h, lkvLookup_insert]
  · by_cases hv : old = v
    · simp [compare_and_update, h, hv]
    · simp [compare_and_update, h, hv, lkvLookup_insert]

theorem lkvLookup_after_caud (m : LKV) (s c d : String) (v : List Byte) :
    lkvLookup (compare_and_update_descriptor m s c d v).2 d = some v := by
  rcases h : lkvLookup m d with _ | old
  · simp [compare_and_update_descriptor, h, lkvLookup_insert]
  · by_cases hv : old = v
    · simp [compare_and_update_descriptor, h, hv]
    · simp [compare_and_update_descriptor, h, hv, lkvLookup_insert]

theorem writesOf_append (a b : List Event) :
    writesOf (a ++ b) = writesOf a ++ writesOf b := by
  simp [writesOf, List.filterMap_append]

theorem reconnectsOf_append (a b : List Event) :
    reconnectsOf (a ++ b) = reconnectsOf a + reconnectsOf b := by
  simp [reconnectsOf, List.filter_append]

theorem pollerProbe_true (ok : Bool) :
    pollerProbe true ok = ([Event.writeAttempt 0x1A kpBytes ok], ok) := by
  simp [pollerProbe, keepaliveBytes_eq]

theorem charWriteRun_nonlock (ds : Bool) (c : String) (ok : Bool) :
    (charWriteRun ds c ok).1.all (fun e => !e.isLockOp) = true := by
  rcases h : fromhex c with _ | p <;> cases ds <;> simp [charWriteRun, h, Event.isLockOp]

theorem pollerProbe_nonlock (ds : Bool) (ok : Bool) :
    (pollerProbe ds ok).1.all (fun e => !e.isLockOp) = true := by
  rcases h : keepaliveBytes with _ | p <;> cases ds <;> simp [pollerProbe, h, Event.isLockOp]

theorem descReadEvents_shape (l : List (String × Bool)) :
    ∀ e ∈ descReadEvents l,
      (∃ u b, e = Event.descRead u b) ∨ (∃ m, e = Event.logError m) := by
  induction l with
  | nil => intro e he; simp [descReadEvents] at he
  | cons p rest ih =>
    rcases p with ⟨u, b⟩
    intro e he
    cases b
    · simp [descReadEvents] at he
      rcases he with rfl | rfl
      · exact Or.inl ⟨u, false, rfl⟩
      · exact Or.inr ⟨_, rfl⟩
    · simp [descReadEvents] at he
      rcases he with rfl | he
      · exact Or.inl ⟨u, true, rfl⟩
      · exact ih e he

theorem scanCharEvents_shape (c : CharData) :
    ∀ e ∈ scanCharEvents c,
      (∃ u b, e = Event.charRead u b) ∨ (∃ u b, e = Event.descRead u b) ∨
      (∃ m, e = Event.logError m) := by
  intro e he
  cases hc : c.readOk
  · simp [scanCharEvents, hc] at he
    rcases he with rfl | rfl
    · exact Or.inl ⟨c.uuid, false, rfl⟩
    · exact Or.inr (Or.inr ⟨_, rfl⟩)
  · simp [scanCharEvents, hc] at he
    rcases he with rfl | he
    · exact Or.inl ⟨c.uuid, true, rfl⟩
    · rcases descReadEvents_shape c.descs e he with h | h
      · exact Or.inr (Or.inl h)
      · exact Or.inr (Or.inr h)

theorem scanBody_shape (svcs : List ServiceData) :
    ∀ e ∈ svcs.flatMap (fun s => s.chars.flatMap scanCharEvents),
      (∃ u b, e = Event.charRead u b) ∨ (∃ u b, e = Event.descRead u b) ∨
      (∃ m, e = Event.logError m) := by
  intro e he
  rw [List.mem_flatMap] at he
  obtain ⟨s, hs, he⟩ := he
  rw [List.mem_flatMap] at he
  obtain ⟨c, hcm, he⟩ := he
  exact scanCharEvents_shape c e he

theorem scanBody_nonlock (svcs : List ServiceData) :
    (svcs.flatMap (fun s => s.chars.flatMap scanCharEvents)).all
      (fun e => !e.isLockOp) = true := by
  rw [List.all_eq_true]
  intro e he
  rcases scanBody_shape svcs e he with ⟨u, b, rfl⟩ | ⟨u, b, rfl⟩ | ⟨m, rfl⟩ <;> rfl

theorem scan_no_writes (ok : Bool) (svcs : List ServiceData) :
    writesOf (scanCharacteristicsRun ok svcs) = [] := by
  cases ok
  · rfl
  · rw [writesOf, List.filterMap_eq_nil]
    intro e he
    simp [scanCharacteristicsRun] at he
    rcases he with rfl | rfl | he | rfl
    · rfl
    · rfl
    · obtain ⟨s, hs, c, hcm, he⟩ := he
      rcases scanCharEvents_shape c e he with ⟨u, b, rfl⟩ | ⟨u, b, rfl⟩ | ⟨m, rfl⟩ <;> rfl
    · rfl

theorem checkGuarded_one_of_nonlock (evs : List Event)
    (h : evs.all (fun e => !e.isLockOp) = true) :
    checkGuarded 1 evs = true := by
  have := checkGuarded_one_append evs [] h
  rw [List.append_nil] at this
  rw [this]
  rfl

/-! ### Claim theorems -/

/-- Claim C4 (code bug): `connectBed` is claimed never to raise to its
caller, including on the very first invocation from the constructor.  On
that first invocation `self.device` has never been assigned; if the first
`Peripheral(...)` open attempt then fails, the guard
`if self.device is not None:` at lucid.py line 114 — outside both `try`
blocks — raises `AttributeError`, which propagates to the caller instead of
being retried after the 1-second backoff. -/
theorem connectBed_first_invocation_raises :
    connectBedRun false [⟨false, false, false⟩] =
      ([Event.openAttempt false], false, ConnectResult.raised PyExn.attributeError) := rfl

/-- Claim C8 (modelled from the spec; the Status Decoder is absent from
`src/`): swapping and concatenating head-angle sub-field bytes "40" and
"3E" gives hex "3E40", which parses as 15936, and normalizing with
`min_raw=0, max_raw=16000, min_angle=0, max_angle=60` yields exactly
59.76 degrees. -/
theorem head_angle_decode_example :
    swapConcat "40" "3E" = "3E40" ∧
    hexStrToNat "3E40" = some 15936 ∧
    normalize 0 16000 0 60 15936 = 5976 / 100 ∧
    headAngleOfSubfields "40" "3E" = some (5976 / 100) := by
  refine ⟨rfl, by decide, by norm_num [normalize], ?_⟩
  have h : hexStrToNat (swapConcat "40" "3E") = some 15936 := by decide
  rw [headAngleOfSubfields, h, Option.map_some']
  norm_num [normalize]

/-- Claim C9: `compare_and_update` (and the descriptor variant) returns
`True` exactly when the key is new in `last_known_values` or the stored
bytes differ from the new bytes, and a second consecutive call with the
identical value for the same key returns `False`. -/
theorem compare_and_update_change_iff (m : LKV) (s c d : String) (v : List Byte) :
    ((compare_and_update m s c v).1 = true ↔
      lkvLookup m c = none ∨ lkvLookup m c ≠ some v) ∧
    (compare_and_update (compare_and_update m s c v).2 s c v).1 = false ∧
    ((compare_and_update_descriptor m s c d v).1 = true ↔
      lkvLookup m d = none ∨ lkvLookup m d ≠ some v) ∧
    (compare_and_update_descriptor (compare_and_update_descriptor m s c d v).2 s c d v).1
      = false := by
  refine ⟨?_, ?_, ?_, ?_⟩
  · rcases h : lkvLookup m c with _ | old
    · simp [compare_and_update, h]
    · by_cases hv : old = v <;> simp [compare_and_update, h, hv]
  · have h := lkvLookup_after_cau m s c v
    generalize hM : (compare_and_update m s c v).2 = M at h ⊢
    simp [compare_and_update, h]
  · rcases h : lkvLookup m d with _ | old
    · simp [compare_and_update_descriptor, h]
    · by_cases hv : old = v <;> simp [compare_and_update_descriptor, h, hv]
  · have h := lkvLookup_after_caud m s c d v
    generalize hM : (compare_and_update_descriptor m s c d v).2 = M at h ⊢
    simp [compare_and_update_descriptor, h]

theorem payloads_wellformed : ∀ v ∈ commands.map Prod.snd, (fromhex v).isSome = true := by
  decide

/-- Claim C1: for every name present in the Command Table, `send_command`
in its success path performs exactly one device write, of exactly the byte
sequence obtained from the hex payload bound to that name. -/
theorem sendCommand_known_writes_payload (env : SendEnv) (name hexPayload : String)
    (h : commandsGet name = some hexPayload) (hok : env.firstWriteOk = true) :
    ∃ p, fromhex hexPayload = some p ∧
      sendCommandRun true env name =
        ([Event.acquire, Event.writeAttempt 0x1A p true, Event.release], true,
          SendResult.sent) ∧
      writesOf (sendCommandRun true env name).1 = [(0x1A, p)] := by
  have hmem : hexPayload ∈ commands.map Prod.snd := by
    rw [commandsGet] at h
    obtain ⟨pr, hpr, hsnd⟩ := Option.map_eq_some'.mp h
    exact hsnd ▸ List.mem_map_of_mem Prod.snd (List.mem_of_find?_eq_some hpr)
  obtain ⟨p, hp⟩ := Option.isSome_iff_exists.mp (payloads_wellformed hexPayload hmem)
  refine ⟨p, hp, ?_, ?_⟩
  · simp [sendCommandRun, h, charWriteRun, hp, hok]
  · simp [sendCommandRun, h, charWriteRun, hp, hok, writesOf]

/-- Claim C1 witness: the theorem applied at "Flat Preset" with a
successful first write. -/
theorem sendCommand_known_writes_payload_witness :
    fromhex "e6fe160000000800fd" = some flatPresetBytes ∧
    sendCommandRun true ⟨true, [], 0⟩ "Flat Preset" =
      ([Event.acquire, Event.writeAttempt 0x1A flatPresetBytes true, Event.release], true,
        SendResult.sent) := by
  obtain ⟨p, hp, hrun, -⟩ := sendCommand_known_writes_payload ⟨true, [], 0⟩ "Flat Preset"
    "e6fe160000000800fd" (by decide) rfl
  have hpv : fromhex "e6fe160000000800fd" = some flatPresetBytes := by decide
  rw [hpv] at hp
  injection hp with hp
  subst hp
  exact ⟨hpv, hrun⟩

/-- Claim C2 (code bug): a known command whose first write fails and whose
reconnect completes successfully in 2 seconds (< 5).  The retry at
lucid.py line 143 is `self.charWrite(self, cmd, name)`: the bound method
receives four positional arguments for a three-parameter function, so
Python raises `TypeError` before `charWrite`'s body runs.  Hence the only
device write in the whole run is the failed first attempt — there is no
retried write of the payload, success of the retry is impossible, and the
command is always dropped. -/
theorem sendCommand_fast_reconnect_retry_is_broken :
    writesOf (sendCommandRun true ⟨false, [⟨true, true, true⟩], 2⟩ "Flat Preset").1 =
      [(0x1A, flatPresetBytes)] ∧
    (sendCommandRun true ⟨false, [⟨true, true, true⟩], 2⟩ "Flat Preset").2.2 =
      SendResult.dropped := by
  decide

/-- Claim C3: for every name absent from the Command Table, `send_command`
logs an error and returns normally, performing zero device writes and in
fact no device I/O at all. -/
theorem sendCommand_unknown_no_io (ds : Bool) (env : SendEnv) (name : String)
    (h : commandsGet name = none) :
    sendCommandRun ds env name =
      ([Event.logError "Unknown Command -- ignoring."], ds, SendResult.unknownCommand) ∧
    writesOf (sendCommandRun ds env name).1 = [] ∧
    (sendCommandRun ds env name).1.all (fun e => !e.isDeviceOp) = true := by
  refine ⟨by simp [sendCommandRun, h], ?_, ?_⟩ <;>
    simp [sendCommandRun, h, writesOf, Event.isDeviceOp]

/-- Claim C3 witness: the theorem applied at the unknown name "bogus". -/
theorem sendCommand_unknown_no_io_witness :
    sendCommandRun true ⟨true, [], 0⟩ "bogus" =
      ([Event.logError "Unknown Command -- ignoring."], true, SendResult.unknownCommand) :=
  (sendCommand_unknown_no_io true ⟨true, [], 0⟩ "bogus" (by decide)).1

/-- Claim C6: within one keepalive tick, when the no-op probe fails twice
there are exactly two probe write attempts — the second 0.5 seconds after
the first — followed by exactly one invocation of the reconnect routine;
when the first probe succeeds there is exactly one probe write, no second
probe and no reconnect; and probe failures are never raised to the caller
of the tick. -/
theorem poller_tick_probe_discipline (as : List Attempt) (b : Bool) :
    writesOf (pollerTickRun true (false, false) as).1 =
      [(0x1A, kpBytes), (0x1A, kpBytes)] ∧
    (pollerTickRun true (false, false) as).1.take 5 =
      [Event.acquire, Event.writeAttempt 0x1A kpBytes false, Event.sleepTenths 5,
       Event.writeAttempt 0x1A kpBytes false, Event.reconnectEnter] ∧
    reconnectsOf (pollerTickRun true (false, false) as).1 = 1 ∧
    pollerTickRun true (true, b) as =
      ([Event.acquire, Event.writeAttempt 0x1A kpBytes true, Event.release,
        Event.sleepTenths 100], true, TickResult.normal) ∧
    reconnectsOf (pollerTickRun true (true, b) as).1 = 0 ∧
    (∀ f2 e, (pollerTickRun true f2 as).2.2 ≠ TickResult.raised e) := by
  have hcw := connectBed_no_writes true as
  have hcr := connectBed_no_reconnects true as
  obtain ⟨tail, htr, hwt, hrt⟩ : ∃ tail,
      (pollerTickRun true (false, false) as).1 =
        Event.acquire :: Event.writeAttempt 0x1A kpBytes false :: Event.sleepTenths 5 ::
          Event.writeAttempt 0x1A kpBytes false :: Event.reconnectEnter ::
          ((connectBedRun true as).1 ++ tail) ∧
      writesOf tail = [] ∧ reconnectsOf tail = 0 := by
    rcases hr : (connectBedRun true as).2.2 with _ | _ | e
    · exact ⟨[Event.release, Event.sleepTenths 100],
        by simp [pollerTickRun, pollerProbe_true, hr], rfl, rfl⟩
    · exact ⟨[], by simp [pollerTickRun, pollerProbe_true, hr], rfl, rfl⟩
    · exact absurd hr (connectBed_true_not_raised as e)
  have wAcq : ∀ l : List Event, writesOf (Event.acquire :: l) = writesOf l :=
    fun _ => rfl
  have wWr : ∀ (h : Nat) (p : List Byte) (ok : Bool) (l : List Event),
      writesOf (Event.writeAttempt h p ok :: l) = (h, p) :: writesOf l :=
    fun _ _ _ _ => rfl
  have wSl : ∀ (n : Nat) (l : List Event),
      writesOf (Event.sleepTenths n :: l) = writesOf l := fun _ _ => rfl
  have wRe : ∀ l : List Event, writesOf (Event.reconnectEnter :: l) = writesOf l :=
    fun _ => rfl
  have rAcq : ∀ l : List Event, reconnectsOf (Event.acquire :: l) = reconnectsOf l :=
    fun _ => rfl
  have rWr : ∀ (h : Nat) (p : List Byte) (ok : Bool) (l : List Event),
      reconnectsOf (Event.writeAttempt h p ok :: l) = reconnectsOf l :=
    fun _ _ _ _ => rfl
  have rSl : ∀ (n : Nat) (l : List Event),
      reconnectsOf (Event.sleepTenths n :: l) = reconnectsOf l := fun _ _ => rfl
  have rRe : ∀ l : List Event,
      reconnectsOf (Event.reconnectEnter :: l) = reconnectsOf l + 1 := fun _ => rfl
  refine ⟨?_, ?_, ?_, ?_, ?_, ?_⟩
  · rw [htr, wAcq, wWr, wSl, wWr, wRe, writesOf_append, hcw, hwt]; rfl
  · rw [htr]; rfl
  · rw [htr, rAcq, rWr, rSl, rWr, rRe, reconnectsOf_append, hcr, hrt]
  · simp [pollerTickRun, pollerProbe_true]
  · simp [pollerTickRun, pollerProbe_true, reconnectsOf]
  · rintro ⟨b1, b2⟩ e
    cases b1
    · cases b2
      · rcases hr : (connectBedRun true as).2.2 with _ | _ | e2
        · simp [pollerTickRun, pollerProbe_true, hr]
        · simp [pollerTickRun, pollerProbe_true, hr]
        · exact absurd hr (connectBed_true_not_raised as e2)
      · simp [pollerTickRun, pollerProbe_true]
    · simp [pollerTickRun, pollerProbe_true]

/-- Claim C5: all device I/O is guarded by the `charWriteInProgress`
exclusive section — in every `send_command` dispatch, every keepalive tick
of `bluetoothPoller`, and every `scan_characteristics` refresh, each device
operation happens at lock-hold depth exactly one with balanced
acquire/release, and in particular the blocking reconnect performed inside
a failed tick or a failed dispatch runs entirely under the held lock. -/
theorem io_section_guarded :
    (∀ ds env name, checkGuarded 0 (sendCommandRun ds env name).1 = true) ∧
    (∀ ds f2 as, checkGuarded 0 (pollerTickRun ds f2 as).1 = true) ∧
    (∀ ok svcs, checkGuarded 0 (scanCharacteristicsRun ok svcs) = true) := by
  refine ⟨?_, ?_, ?_⟩
  · intro ds env name
    rcases hcg : commandsGet name with _ | cmdHex
    · simp [sendCommandRun, hcg, checkGuarded, guardStep, Event.isDeviceOp]
    · have hw1 := charWriteRun_nonlock ds cmdHex env.firstWriteOk
      have step : ∀ X, checkGuarded 1 X = true →
          checkGuarded 0 (Event.acquire :: ((charWriteRun ds cmdHex env.firstWriteOk).1 ++
            ([Event.logError "Error sending command, attempting reconnect.",
              Event.reconnectEnter] ++ X))) = true := by
        intro X hX
        show checkGuarded 1 ((charWriteRun ds cmdHex env.firstWriteOk).1 ++
          ([Event.logError "Error sending command, attempting reconnect.",
            Event.reconnectEnter] ++ X)) = true
        rw [checkGuarded_one_append _ _ hw1,
          checkGuarded_one_append
            [Event.logError "Error sending command, attempting reconnect.",
             Event.reconnectEnter] X (by rfl)]
        exact hX
      by_cases hok : (charWriteRun ds cmdHex env.firstWriteOk).2 = true
      · simp only [sendCommandRun, hcg, hok, if_true]
        simp only [List.cons_append, List.append_assoc]
        show checkGuarded 1 ((charWriteRun ds cmdHex env.firstWriteOk).1 ++
          [Event.release]) = true
        rw [checkGuarded_one_append _ _ hw1]
        rfl
      · simp only [sendCommandRun, hcg]
        rw [if_neg hok]
        rcases hr : (connectBedRun ds env.attempts).2.2 with _ | _ | e <;>
          simp only [hr, List.cons_append, List.append_assoc]
        · by_cases h5 : env.reconnectSecs < 5
          · rw [if_pos h5]
            simp only [List.cons_append, List.append_assoc]
            refine step _ ?_
            rw [checkGuarded_one_append _ _ (connectBed_nonlock ds env.attempts)]
            rfl
          · rw [if_neg h5]
            simp only [List.cons_append, List.append_assoc]
            refine step _ ?_
            rw [checkGuarded_one_append _ _ (connectBed_nonlock ds env.attempts)]
            rfl
        · exact step _ (checkGuarded_one_of_nonlock _ (connectBed_nonlock ds env.attempts))
        · refine step _ ?_
          rw [checkGuarded_one_append _ _ (connectBed_nonlock ds env.attempts)]
          rfl
  · intro ds f2 as
    have hp1 := pollerProbe_nonlock ds f2.1
    have hp2 := pollerProbe_nonlock ds f2.2
    by_cases h1 : (pollerProbe ds f2.1).2 = true
    · simp only [pollerTickRun, h1, if_true]
      simp only [List.cons_append, List.append_assoc]
      show checkGuarded 1 ((pollerProbe ds f2.1).1 ++
        [Event.release, Event.sleepTenths 100]) = true
      rw [checkGuarded_one_append _ _ hp1]
      rfl
    · by_cases h2 : (pollerProbe ds f2.2).2 = true
      · simp only [pollerTickRun]
        rw [if_neg h1, if_pos h2]
        simp only [List.cons_append, List.append_assoc]
        show checkGuarded 1 ((pollerProbe ds f2.1).1 ++
          ([Event.sleepTenths 5] ++ ((pollerProbe ds f2.2).1 ++
            [Event.release, Event.sleepTenths 100]))) = true
        rw [checkGuarded_one_append _ _ hp1,
          checkGuarded_one_append [Event.sleepTenths 5] _ (by rfl),
          checkGuarded_one_append _ _ hp2]
        rfl
      · have step : ∀ X, checkGuarded 1 X = true →
            checkGuarded 0 (Event.acquire :: ((pollerProbe ds f2.1).1 ++
              ([Event.sleepTenths 5] ++ ((pollerProbe ds f2.2).1 ++
                ([Event.reconnectEnter] ++ X))))) = true := by
          intro X hX
          show checkGuarded 1 ((pollerProbe ds f2.1).1 ++
            ([Event.sleepTenths 5] ++ ((pollerProbe ds f2.2).1 ++
              ([Event.reconnectEnter] ++ X)))) = true
          rw [checkGuarded_one_append _ _ hp1,
            checkGuarded_one_append [Event.sleepTenths 5] _ (by rfl),
            checkGuarded_one_append _ _ hp2,
            checkGuarded_one_append [Event.reconnectEnter] X (by rfl)]
          exact hX
        simp only [pollerTickRun]
        rw [if_neg h1, if_neg h2]
        rcases hr : (connectBedRun ds as).2.2 with _ | _ | e <;>
          simp only [hr, List.cons_append, List.append_assoc]
        · refine step _ ?_
          rw [checkGuarded_one_append _ _ (connectBed_nonlock ds as)]
          rfl
        · exact step _ (checkGuarded_one_of_nonlock _ (connectBed_nonlock ds as))
        · refine step _ ?_
          rw [checkGuarded_one_append _ _ (connectBed_nonlock ds as)]
          rfl
  · intro ok svcs
    cases ok
    · rfl
    · show checkGuarded 0 ((Event.acquire :: Event.enumAttempt true ::
        svcs.flatMap (fun s => s.chars.flatMap scanCharEvents)) ++ [Event.release]) = true
      simp only [List.cons_append]
      show checkGuarded 1 ((svcs.flatMap (fun s => s.chars.flatMap scanCharEvents)) ++
        [Event.release]) = true
      rw [checkGuarded_one_append _ _ (scanBody_nonlock svcs)]
      rfl

/-- Claim C7 counterexample: the constructor does not start the
keepalive-probe loop.  Its effectful tail is a blocking `connectBed` call
followed by starting a daemon thread running `periodic_scan` — the
`bluetoothPoller` thread start is commented out — and an iteration of the
started loop performs no device write at all, in particular never the
keepalive no-op probe. -/
theorem init_starts_scan_not_poller :
    initSteps = [InitStep.callConnectBed, InitStep.startDaemonThread TaskId.periodicScan] ∧
    InitStep.startDaemonThread TaskId.bluetoothPoller ∉ initSteps ∧
    writesOf (scanCharacteristicsRun true
      [⟨"service1", [⟨"char1", true, [("desc1", true)]⟩]⟩]) = [] := by
  exact ⟨rfl, by decide, rfl⟩

/-- Claim C7 (amended): session construction first connects — blocking
until the first successful connect — and then starts a background daemon
task; that task is the periodic characteristic scan `periodic_scan`, not
the keepalive-probe loop, and it runs for the lifetime of the session:
against every finite oracle it is still running (the loop body has no exit)
and it performs no device writes. -/
theorem init_background_task_behavior :
    initSteps = [InitStep.callConnectBed, InitStep.startDaemonThread TaskId.periodicScan] ∧
    (∀ ticks, (periodicScanRun ticks).2 = LoopState.running) ∧
    (∀ ticks, writesOf (periodicScanRun ticks).1 = []) := by
  refine ⟨rfl, ?_, ?_⟩
  · intro ticks
    induction ticks with
    | nil => rfl
    | cons t rest ih =>
      rcases t with ⟨ok, svcs⟩
      simpa [periodicScanRun] using ih
  · intro ticks
    induction ticks with
    | nil => rfl
    | cons t rest ih =>
      rcases t with ⟨ok, svcs⟩
      show writesOf (scanCharacteristicsRun ok svcs ++ [Event.sleepTenths 10] ++
        (periodicScanRun rest).1) = []
      rw [writesOf_append, writesOf_append, scan_no_writes, ih]
      rfl

/-- Claim C10: `parse_value` is total — for every byte sequence it returns
the UTF-8 decoding when the bytes are valid UTF-8, otherwise the
little-endian unsigned integer for inputs of length 1, 2 or 4, otherwise
the hexadecimal string representation of the bytes. -/
theorem parse_value_total (v : List Byte) :
    (∀ cps, utf8Decode v = some cps → parse_value v = PyValue.str cps) ∧
    (utf8Decode v = none →
      (∀ b0, v = [b0] → parse_value v = PyValue.int b0.val) ∧
      (∀ b0 b1, v = [b0, b1] → parse_value v = PyValue.int (b0.val + 256 * b1.val)) ∧
      (∀ b0 b1 b2 b3, v = [b0, b1, b2, b3] →
        parse_value v =
          PyValue.int (b0.val + 256 * b1.val + 65536 * b2.val + 16777216 * b3.val)) ∧
      (v.length ≠ 1 → v.length ≠ 2 → v.length ≠ 4 →
        parse_value v = PyValue.hexRepr (bytesToHex v))) := by
  constructor
  · intro cps h
    simp [parse_value, h]
  · intro hn
    refine ⟨?_, ?_, ?_, ?_⟩
    · rintro b0 rfl
      simp [parse_value, hn, leNat]
    · rintro b0 b1 rfl
      simp [parse_value, hn, leNat]
    · rintro b0 b1 b2 b3 rfl
      simp [parse_value, hn, leNat]
      ring
    · intro h1 h2 h4
      simp [parse_value, hn, h1, h2, h4]

/-- Claim C10 witness: `parse_value` evaluated through the theorem on a
valid-UTF-8 input, a two-byte and a four-byte non-UTF-8 input, and a
three-byte non-UTF-8 input. -/
theorem parse_value_total_witness :
    parse_value [0x68, 0x69] = PyValue.str [0x68, 0x69] ∧
    parse_value [0xff, 0x01] = PyValue.int 511 ∧
    parse_value [0x80, 0, 0, 1] = PyValue.int 16777344 ∧
    parse_value [0xff, 0xff, 0xff] = PyValue.hexRepr (bytesToHex [0xff, 0xff, 0xff]) := by
  refine ⟨(parse_value_total [0x68, 0x69]).1 [0x68, 0x69] (by decide), ?_, ?_, ?_⟩
  · have h := ((parse_value_total [0xff, 0x01]).2 (by decide)).2.1 0xff 0x01 rfl
    simpa using h
  · have h := (((parse_value_total [0x80, 0, 0, 1]).2 (by decide)).2.2.1) 0x80 0 0 1 rfl
    simpa using h
  · exact (((parse_value_total [0xff, 0xff, 0xff]).2 (by decide)).2.2.2)
      (by decide) (by decide) (by decide)

end Lucid
